import Mathlib

/-!
Verification development for the MEPS repository: a shallow embedding of the
pure computational core of `structure_parser.py`, `gaussian_io.py`,
`gaussian_runner.py`, `vina_docking.py`, `result_extractor.py` and
`scripts/batch_interaction_energy.py`, together with theorems settling the
frozen specification claims about that code.

Conventions of the embedding:
- Python `str` values that get scanned character by character are `List Char`;
  element symbols and identifiers that are only compared as wholes are `String`.
- Python `float` literals read out of text are exact rationals `ℚ` (every
  decimal literal is a rational; none of the modelled code does float
  arithmetic whose rounding would be observable in the claims).
- A Python function that can raise an exception is embedded as `Option`/`Except`
  returning `none`/`.error` where the exception would propagate.
-/

namespace MEPS

/-- One atom as stored in `StructureParser.atoms`: `(element, x, y, z)`. -/
structure Atom where
  el : String
  x : ℚ
  y : ℚ
  z : ℚ
  deriving DecidableEq, Repr

/-- The mutable state of a `StructureParser` object: the atom list, the net
charge and the spin multiplicity (`structure_parser.py` lines 28-32). -/
structure Structure where
  atoms : List Atom
  charge : ℤ
  multiplicity : ℤ
  deriving DecidableEq, Repr

/-- `StructureParser.merge` (`structure_parser.py` lines 481-496): concatenates
the two atom lists with `self` first, sums the charges and takes the maximum of
the multiplicities. -/
def merge (a b : Structure) : Structure :=
  { atoms := a.atoms ++ b.atoms
    charge := a.charge + b.charge
    multiplicity := max a.multiplicity b.multiplicity }

/-- `StructureParser.get_bounding_box` (`structure_parser.py` lines 463-479):
for an empty atom list it returns the zero box; otherwise the componentwise
minimum and maximum of the coordinates (the embedding of `np.min`/`np.max`
over each coordinate column as a fold). Result: `((xmin, xmax), (ymin, ymax),
(zmin, zmax))`. -/
def get_bounding_box (s : Structure) : (ℚ × ℚ) × (ℚ × ℚ) × (ℚ × ℚ) :=
  match s.atoms with
  | [] => ((0, 0), (0, 0), (0, 0))
  | a :: rest =>
    ((((rest.map Atom.x).foldl min a.x), ((rest.map Atom.x).foldl max a.x)),
     (((rest.map Atom.y).foldl min a.y), ((rest.map Atom.y).foldl max a.y)),
     (((rest.map Atom.z).foldl min a.z), ((rest.map Atom.z).foldl max a.z)))

/-- The fragment-derivation logic of `InteractionEnergyPipeline.optimize_complex`
(`gaussian_runner.py` lines 392-428), as a pure function of the three optional
structure arguments.  When `complex_structure` is given, fragment A is the first
`len(structure_a.atoms)` atoms of the complex carrying `structure_a`'s charge
and multiplicity, and fragment B is the remaining atoms carrying
`structure_b`'s charge/multiplicity when `structure_b` is given and `0`/`1`
otherwise.  The `ValueError`s raised by the Python code become `.error`. -/
def derive_fragments (structure_a structure_b complex_structure : Option Structure) :
    Except String (Structure × Structure) :=
  match complex_structure with
  | some c =>
    match structure_a with
    | none => .error
        "When using complex_structure, structure_a must be provided to determine fragment split point"
    | some a =>
      let n := a.atoms.length
      let frag_a : Structure := ⟨c.atoms.take n, a.charge, a.multiplicity⟩
      let frag_b : Structure :=
        match structure_b with
        | some b => ⟨c.atoms.drop n, b.charge, b.multiplicity⟩
        | none => ⟨c.atoms.drop n, 0, 1⟩
      .ok (frag_a, frag_b)
  | none =>
    match structure_a, structure_b with
    | some a, some b => .ok (a, b)
    | _, _ => .error
        "Either complex_structure or both structure_a and structure_b must be provided"

/-! ### Text-scanning primitives

The Python code works on lines of text (`str`).  Lines are embedded as
`List Char`; the primitives below embed the Python operations the modelled
code uses: the `in` substring test, `str.split()` (split on whitespace runs,
dropping empty tokens), `str.split('\n')` (keeping empty parts), `str.strip()`,
and `int()`/`float()` conversion of numeric tokens. -/

/-- Python's `needle in hay` substring test. -/
def contains_sub : List Char → List Char → Bool
  | n, [] => n.isEmpty
  | n, c :: rest => List.isPrefixOf n (c :: rest) || contains_sub n rest

/-- Helper for `split_ws`: accumulates the current token (reversed) while
scanning. -/
def split_ws_aux : List Char → List Char → List (List Char)
  | [], [] => []
  | [], acc => [acc.reverse]
  | c :: rest, acc =>
    if c.isWhitespace then
      match acc with
      | [] => split_ws_aux rest []
      | _ => acc.reverse :: split_ws_aux rest []
    else split_ws_aux rest (c :: acc)

/-- Python's `str.split()`: split on runs of whitespace, no empty tokens. -/
def split_ws (l : List Char) : List (List Char) := split_ws_aux l []

/-- Helper for `split_nl`. -/
def split_nl_aux : List Char → List Char → List (List Char)
  | [], acc => [acc.reverse]
  | c :: rest, acc =>
    if c = '\n' then acc.reverse :: split_nl_aux rest []
    else split_nl_aux rest (c :: acc)

/-- Python's `str.split('\n')`: empty parts are kept. -/
def split_nl (l : List Char) : List (List Char) := split_nl_aux l []

/-- Python's `str.strip()`. -/
def strip (l : List Char) : List Char :=
  ((l.dropWhile Char.isWhitespace).reverse.dropWhile Char.isWhitespace).reverse

/-- Numeric value of a (nonempty) digit string. -/
def digits_nat (l : List Char) : ℕ :=
  l.foldl (fun acc c => acc * 10 + (c.toNat - 48)) 0

/-- Python's `int()` on a whitespace-free token: optional sign followed by at
least one decimal digit, nothing else; `none` embeds the `ValueError`. -/
def parse_int (t : List Char) : Option ℤ :=
  let core : List Char → Option ℤ := fun r =>
    if r ≠ [] ∧ r.all Char.isDigit then some (digits_nat r : ℤ) else none
  match t with
  | '-' :: r => (core r).map Int.neg
  | '+' :: r => core r
  | r => core r

/-- Python's `float()` on a whitespace-free token, restricted to plain decimal
notation `[+-]?digits[.digits]` / `[+-]?.digits` (the only shape the modelled
logs contain; exponent notation is outside the model); `none` embeds the
`ValueError`. -/
def parse_float (t : List Char) : Option ℚ :=
  let core : List Char → Option ℚ := fun r =>
    let ip := r.takeWhile Char.isDigit
    match r.drop ip.length with
    | [] => if ip = [] then none else some (digits_nat ip : ℚ)
    | '.' :: fr =>
      let fp := fr.takeWhile Char.isDigit
      if fr.drop fp.length ≠ [] then none
      else if ip = [] ∧ fp = [] then none
      else some ((digits_nat ip : ℚ) + (digits_nat fp : ℚ) / (10 : ℚ) ^ fp.length)
    | _ => none
  match t with
  | '-' :: r => (core r).map Neg.neg
  | '+' :: r => core r
  | r => core r

/-- The "Normal termination" sentinel scanned for by
`GaussianOutputParser.is_normal_termination` (`gaussian_io.py` line 194) and by
`extract_counterpoise_results` (`result_extractor.py` line 87). -/
def normal_sentinel : List Char := "Normal termination".toList

/-- The "Error termination" sentinel (`gaussian_io.py` line 196). -/
def error_sentinel : List Char := "Error termination".toList

/-! ### Rendering integers to text (Python `str(int)` / f-string interpolation) -/

/-- The character for a decimal digit value. -/
def digit_char (d : ℕ) : Char := Char.ofNat (48 + d)

/-- Fuel-driven digit accumulator: prepends the decimal digits of `n` to
`acc` (the standard repr loop; fuel `n + 1` always suffices). -/
def nat_digits_core : ℕ → ℕ → List Char → List Char
  | 0, _, acc => acc
  | fuel + 1, n, acc =>
    let d := digit_char (n % 10)
    let n' := n / 10
    if n' = 0 then d :: acc else nat_digits_core fuel n' (d :: acc)

/-- Decimal digit string of a natural number. -/
def nat_digits (n : ℕ) : List Char := nat_digits_core (n + 1) n []

/-- Python's `str()` of an integer, as a character list. -/
def int_str (n : ℤ) : List Char :=
  if n < 0 then '-' :: nat_digits n.natAbs else nat_digits n.toNat

/-! ### Counterpoise input: the charge/multiplicity line -/

/-- The charge/multiplicity line written by
`GaussianInputGenerator.generate_counterpoise_input` (`gaussian_io.py` lines
126-128 and 151-155): `total_charge` is `charge_a + charge_b`,
`total_multiplicity` is fixed at `1`, and the three f-string writes produce
`"{total_charge} {total_multiplicity} {charge_a} {multiplicity_a} {charge_b}
{multiplicity_b}\n"`. -/
def counterpoise_charge_mult_line (charge_a mult_a charge_b mult_b : ℤ) : List Char :=
  let total_charge := charge_a + charge_b
  let total_multiplicity : ℤ := 1
  (int_str total_charge ++ ' ' :: int_str total_multiplicity ++ [' ']) ++
    (int_str charge_a ++ ' ' :: int_str mult_a ++ [' ']) ++
    (int_str charge_b ++ ' ' :: int_str mult_b ++ ['\n'])

/-! ### Reading coordinates back out of a Gaussian output log -/

/-- Marker of a coordinate block (`structure_parser.py` line 221). -/
def orientation_marker (l : List Char) : Bool :=
  contains_sub ("Standard orientation:".toList) l ||
    contains_sub ("Input orientation:".toList) l

/-- The lines following the last orientation marker, or `none` when no marker
occurs (in which case `read_gaussian_output` raises `ValueError`). -/
def after_last_orientation : List (List Char) → Option (List (List Char))
  | [] => none
  | l :: rest =>
    match after_last_orientation rest with
    | some tl => some tl
    | none => if orientation_marker l then some rest else none

/-- The fixed atomic-number → element-symbol table of
`StructureParser.read_gaussian_output` (`structure_parser.py` lines 230-233). -/
def atomic_symbol : ℤ → Option String
  | 1 => some "H"
  | 6 => some "C"
  | 7 => some "N"
  | 8 => some "O"
  | 9 => some "F"
  | 15 => some "P"
  | 16 => some "S"
  | 17 => some "Cl"
  | 35 => some "Br"
  | 53 => some "I"
  | _ => none

/-- `element = atomic_numbers.get(atomic_num, str(atomic_num))`
(`structure_parser.py` line 244): table lookup with the decimal string of the
atomic number as the silent fallback. -/
def element_for (n : ℤ) : String :=
  match atomic_symbol n with
  | some s => s
  | none => String.mk (int_str n)

/-- The row loop of `read_gaussian_output` (`structure_parser.py` lines
235-245): stop at the first line containing `"---"`; a line splitting into at
least 6 fields contributes an atom (`int(parts[1])`, `float(parts[3..5])`,
element via `element_for`); shorter lines are skipped; a failed numeric
conversion raises (`none`). -/
def scan_coord_block : List (List Char) → Option (List Atom)
  | [] => some []
  | l :: rest =>
    if contains_sub ("---".toList) l then some []
    else
      match split_ws l with
      | _ :: p1 :: _ :: p3 :: p4 :: p5 :: _ => do
        let n ← parse_int p1
        let x ← parse_float p3
        let y ← parse_float p4
        let z ← parse_float p5
        let tail ← scan_coord_block rest
        some (⟨element_for n, x, y, z⟩ :: tail)
      | _ => scan_coord_block rest

/-- `StructureParser.read_gaussian_output` (`structure_parser.py` lines
206-245) restricted to its atom-list result: locate the last orientation
block, skip the 4 header lines after the marker (`start_line = idx + 5`), and
scan rows until the closing dashes; `none` embeds the raised exceptions. -/
def read_gaussian_output (lines : List (List Char)) : Option (List Atom) :=
  (after_last_orientation lines).bind fun tl => scan_coord_block (tl.drop 4)

/-- A minimal Gaussian output fragment whose last (only) orientation block
holds a single atom with atomic number 14 (silicon, absent from the table). -/
def gaussian_log_z14 : List (List Char) :=
  [" Standard orientation:".toList,
   " ----".toList,
   " Center Atomic Atomic Coords".toList,
   " Number Number Type X Y Z".toList,
   " ----".toList,
   " 1 14 0 0.0 0.5 -1.25".toList,
   " ----".toList]

/-! ### Parsing AutoDock Vina stdout -/

/-- One parsed docking mode (`vina_docking.py` lines 239-244). -/
structure VinaMode where
  mode : ℕ
  affinity : ℚ
  rmsd_lb : Option ℚ
  rmsd_ub : Option ℚ
  deriving DecidableEq, Repr

/-- The parse result of `VinaDocking._parse_vina_output` (file-path key
omitted): the mode list and the best affinity. -/
structure VinaResults where
  modes : List VinaMode
  best_affinity : Option ℚ
  deriving DecidableEq, Repr

/-- Python `str.lower()`. -/
def lower (l : List Char) : List Char := l.map Char.toLower

/-- The results-section trigger (`vina_docking.py` line 225):
`'mode |   affinity' in line.lower() or 'kcal/mol' in line.lower()`. -/
def is_results_header (l : List Char) : Bool :=
  contains_sub ("mode |   affinity".toList) (lower l) ||
    contains_sub ("kcal/mol".toList) (lower l)

/-- `float(parts[k])` for an optional rmsd column: `some none` when the column
is absent (`None` in Python), `none` when present but unparsable (the
`ValueError` that skips the record). -/
def opt_rmsd (ps : List (List Char)) (k : ℕ) : Option (Option ℚ) :=
  match ps[k]? with
  | none => some none
  | some t => (parse_float t).map some

/-- The per-line pose-record parse of `_parse_vina_output` (`vina_docking.py`
lines 233-248): the stripped line must be nonempty and start with a digit, the
line must split into at least two fields, the leading field must be a pure
digit string without `%`, and the numeric conversions must succeed; any
failure yields `none` (the line contributes no mode). -/
def parse_mode_line (l : List Char) : Option VinaMode :=
  match strip l with
  | [] => none
  | c :: _ =>
    if c.isDigit then
      match split_ws l with
      | p0 :: p1 :: ps =>
        if !p0.isEmpty && p0.all Char.isDigit && !p0.contains '%' then
          match parse_float p1 with
          | none => none
          | some aff =>
            match opt_rmsd ps 0, opt_rmsd ps 1 with
            | some ol, some ou => some ⟨digits_nat p0, aff, ol, ou⟩
            | _, _ => none
        else none
      | _ => none
    else none

/-- The line loop of `_parse_vina_output` with its `in_results_section`
flag. -/
def parse_vina_lines : List (List Char) → Bool → List VinaMode
  | [], _ => []
  | l :: rest, inSec =>
    if is_results_header l then parse_vina_lines rest true
    else if inSec then
      match parse_mode_line l with
      | some m => m :: parse_vina_lines rest true
      | none => parse_vina_lines rest true
    else parse_vina_lines rest false

/-- `VinaDocking._parse_vina_output` (`vina_docking.py` lines 205-253): split
the stdout on newlines, collect modes inside the results section, and take the
first mode's affinity as `best_affinity` (`None` when no mode parsed). -/
def parse_vina_output (output : List Char) : VinaResults :=
  let ms := parse_vina_lines (split_nl output) false
  ⟨ms, ms.head?.map VinaMode.affinity⟩

/-- What one line inside the results section contributes: nothing when it
re-triggers the header check, otherwise its pose-record parse. -/
def section_line_parse (l : List Char) : Option VinaMode :=
  if is_results_header l then none else parse_mode_line l

/-- Whether the line's leading whitespace-separated token holds `%` (the shape
of a progress-indicator line such as "50%"). -/
def first_token_percent (l : List Char) : Bool :=
  match split_ws l with
  | [] => false
  | t :: _ => t.contains '%'

/-- Lines of a representative Vina stdout before the results header: a banner
and a progress line. -/
def vina_demo_pre : List (List Char) :=
  ["AutoDock Vina v1".toList, "0% 50% 100%".toList]

/-- The results header line of the representative stdout. -/
def vina_demo_hdr : List Char := "mode |   affinity | dist from best mode".toList

/-- Lines of the representative stdout after the header: the units line, a
separator, two pose rows with a progress line interleaved, and the empty
trailing line. -/
def vina_demo_rest : List (List Char) :=
  ["     | (kcal/mol) | rmsd l.b.| rmsd u.b.".toList,
   "-----+------------+----------".toList,
   " 1 -5.2 0.0 0.0".toList,
   "50%".toList,
   " 2 -4.8 1.5 2.1".toList,
   "".toList]

/-- The representative Vina stdout as one string. -/
def vina_demo_output : List Char :=
  ("AutoDock Vina v1\n0% 50% 100%\nmode |   affinity | dist from best mode\n" ++
   "     | (kcal/mol) | rmsd l.b.| rmsd u.b.\n-----+------------+----------\n" ++
   " 1 -5.2 0.0 0.0\n50%\n 2 -4.8 1.5 2.1\n").toList

/-! ### Extracting counterpoise results from a Gaussian log -/

/-- One step-level counterpoise summary record (`result_extractor.py` lines
79-84). -/
structure CpStep where
  cp_energy : ℚ
  bsse : Option ℚ
  raw_energy : Option ℚ
  corrected_energy : Option ℚ
  deriving DecidableEq, Repr

/-- The result dictionary of `extract_counterpoise_results`
(`result_extractor.py` lines 44-52); `sum_of_fragments` is initialized to
`None` and never assigned. -/
structure CpResults where
  counterpoise_corrected_energy : Option ℚ
  bsse_energy : Option ℚ
  sum_of_fragments : Option ℚ
  complexation_energy_raw : Option ℚ
  complexation_energy_corrected : Option ℚ
  optimization_steps : List CpStep
  converged : Bool
  deriving DecidableEq, Repr

/-- The step trigger: `'Counterpoise corrected energy' in line`
(`result_extractor.py` line 59). -/
def has_cp_trigger (l : List Char) : Bool :=
  contains_sub ("Counterpoise corrected energy".toList) l

/-- Helper for `split_char`. -/
def split_char_aux (sep : Char) : List Char → List Char → List (List Char)
  | [], acc => [acc.reverse]
  | c :: rest, acc =>
    if c = sep then acc.reverse :: split_char_aux sep rest []
    else split_char_aux sep rest (c :: acc)

/-- Python's `str.split(sep)` for a one-character separator (empty parts
kept). -/
def split_char (sep : Char) (l : List Char) : List (List Char) :=
  split_char_aux sep l []

/-- `float(line.split('=')[1].strip())` (`result_extractor.py` lines 60 and
69): `none` embeds both the `IndexError` (no `=` in the line) and the
`ValueError` (non-numeric text). -/
def parse_eq_float (l : List Char) : Option ℚ :=
  match (split_char '=' l)[1]? with
  | none => none
  | some part => parse_float (strip part)

/-- Try to match the regex `[-+]?\d+\.\d+\s+kcal/mole` at the start of `l`,
returning the numeric capture group (greedy and deterministic here: each
quantified class is followed by a character it cannot match). -/
def match_kcal_num (l : List Char) : Option (List Char) :=
  let sgnSplit : List Char × List Char :=
    match l with
    | '-' :: r => (['-'], r)
    | '+' :: r => (['+'], r)
    | r => ([], r)
  let sgn := sgnSplit.1
  let r := sgnSplit.2
  let ds := r.takeWhile Char.isDigit
  if ds.isEmpty then none
  else
    match r.drop ds.length with
    | '.' :: r2 =>
      let fs := r2.takeWhile Char.isDigit
      if fs.isEmpty then none
      else
        let r3 := r2.drop fs.length
        let ws := r3.takeWhile Char.isWhitespace
        if ws.isEmpty then none
        else if ("kcal/mole".toList).isPrefixOf (r3.drop ws.length) then
          some (sgn ++ ds ++ '.' :: fs)
        else none
    | _ => none

/-- `re.search(r'([-+]?\d+\.\d+)\s+kcal/mole', line)` followed by
`float(match.group(1))` (`result_extractor.py` lines 71-77): leftmost match
wins; `none` when the pattern does not occur. -/
def search_kcal : List Char → Option ℚ
  | [] => none
  | c :: rest =>
    match match_kcal_num (c :: rest) with
    | some g => parse_float g
    | none => search_kcal rest

/-- The look-ahead window loop (`result_extractor.py` lines 67-77) over the 9
lines after a trigger, threading the `(bsse, raw, corrected)` state through
the `if`/`elif` chain; a malformed BSSE line raises (`none`), a failed regex
search just leaves the field unchanged. -/
def window_fields : List (List Char) → Option ℚ × Option ℚ × Option ℚ →
    Option (Option ℚ × Option ℚ × Option ℚ)
  | [], st => some st
  | l :: rest, (bsse, raw, corr) =>
    if contains_sub ("BSSE energy".toList) l then
      match parse_eq_float l with
      | none => none
      | some v => window_fields rest (some v, raw, corr)
    else if contains_sub ("complexation energy".toList) l &&
        contains_sub ("(raw)".toList) l then
      match search_kcal l with
      | some v => window_fields rest (bsse, some v, corr)
      | none => window_fields rest (bsse, raw, corr)
    else if contains_sub ("complexation energy".toList) l &&
        contains_sub ("(corrected)".toList) l then
      match search_kcal l with
      | some v => window_fields rest (bsse, raw, some v)
      | none => window_fields rest (bsse, raw, corr)
    else window_fields rest (bsse, raw, corr)

/-- The step-collection loop of `extract_counterpoise_results`
(`result_extractor.py` lines 57-84): every line containing the trigger starts
a record whose remaining fields are gathered from the following
`range(i+1, min(i+10, len))` window; records accumulate in `step_data` in
order. -/
def extract_steps : List (List Char) → Option (List CpStep)
  | [] => some []
  | l :: rest =>
    if has_cp_trigger l then
      match parse_eq_float l with
      | none => none
      | some cp =>
        match window_fields (rest.take 9) (none, none, none) with
        | none => none
        | some (b, r, c) =>
          match extract_steps rest with
          | none => none
          | some steps => some (⟨cp, b, r, c⟩ :: steps)
    else extract_steps rest

/-- `ResultExtractor.extract_counterpoise_results` (`result_extractor.py`
lines 30-99): collect all step records, set `converged` from the "Normal
termination" sentinel, and report the last record's fields as the final
values (all `None` and an empty step list when no block occurs). -/
def extract_counterpoise_results (lines : List (List Char)) : Option CpResults :=
  (extract_steps lines).map fun steps =>
    let conv := lines.any fun l => contains_sub normal_sentinel l
    match steps.getLast? with
    | none => ⟨none, none, none, none, none, [], conv⟩
    | some last =>
      ⟨some last.cp_energy, last.bsse, none, last.raw_energy,
        last.corrected_energy, steps, conv⟩

/-- Sequencing a fallible function over a list (explicit recursion, used to
state which value each collected step's energy came from). -/
def option_map_list {α β : Type} (f : α → Option β) : List α → Option (List β)
  | [] => some []
  | a :: l =>
    match f a with
    | none => none
    | some b => (option_map_list f l).map (b :: ·)

/-- A representative counterpoise log: two step-level summary blocks more than
9 lines apart (as in a real log) and a normal termination line. -/
def cp_demo_log : List (List Char) :=
  [" Counterpoise corrected energy =  -465.1".toList,
   "   BSSE energy =  0.0026".toList,
   "   complexation energy =  -12.35 kcal/mole (raw)".toList,
   "   complexation energy =  -10.72 kcal/mole (corrected)".toList,
   " GradGradGrad".toList,
   " Step number 2".toList,
   " scf done".toList,
   " line 8".toList,
   " line 9".toList,
   " line 10".toList,
   " Counterpoise corrected energy =  -465.3".toList,
   "   BSSE energy =  0.0024".toList,
   "   complexation energy =  -12.55 kcal/mole (raw)".toList,
   "   complexation energy =  -10.92 kcal/mole (corrected)".toList,
   " Normal termination of Gaussian 16".toList]

/-! ### Gaussian termination classification -/

/-- The loop body of `is_normal_termination`: scan a list of lines (already
reversed, i.e. last line first) and decide on the first line holding either
sentinel. -/
def scan_reversed_for_termination : List (List Char) → Bool
  | [] => false
  | l :: rest =>
    if contains_sub normal_sentinel l then true
    else if contains_sub error_sentinel l then false
    else scan_reversed_for_termination rest

/-- `GaussianOutputParser.is_normal_termination` (`gaussian_io.py` lines
186-198): iterate over `reversed(self.content)`, return `True` on the first
line containing "Normal termination", `False` on the first line containing
"Error termination", and `False` if neither sentinel occurs. -/
def is_normal_termination (content : List (List Char)) : Bool :=
  scan_reversed_for_termination content.reverse

/-- A line holding either termination sentinel. -/
def has_termination_sentinel (l : List Char) : Bool :=
  contains_sub normal_sentinel l || contains_sub error_sentinel l

/-- The spec's words for claim C5 (distinct from the source-derived
`is_normal_termination`, for comparison): the run is normal iff the last line
holding a termination sentinel holds "Normal termination"; not normal when no
sentinel occurs. -/
def classify_by_last_sentinel (content : List (List Char)) : Bool :=
  match (content.filter has_termination_sentinel).getLast? with
  | none => false
  | some l => contains_sub normal_sentinel l

/-! ### Atom-distance clash check -/

/-- Squared Euclidean distance between two atoms. -/
def dist_sq (a b : Atom) : ℚ :=
  (a.x - b.x) ^ 2 + (a.y - b.y) ^ 2 + (a.z - b.z) ^ 2

/-- Pairs of atom `a` (at index `i`) with each atom of `l` (indices `j`,
`j+1`, ...) whose squared distance to `a` is below `minD ^ 2`. -/
def pair_with (minD : ℚ) (i : ℕ) (a : Atom) : ℕ → List Atom → List (ℕ × ℕ × ℚ)
  | _, [] => []
  | j, b :: rest =>
    (if dist_sq a b < minD ^ 2 then [(i, j, dist_sq a b)] else []) ++
      pair_with minD i a (j + 1) rest

/-- All index pairs `i < j` of the list (indices offset by the first argument)
whose squared distance is below `minD ^ 2`, in lexicographic order. -/
def atom_pairs_check (minD : ℚ) : ℕ → List Atom → List (ℕ × ℕ × ℚ)
  | _, [] => []
  | i, a :: rest => pair_with minD i a (i + 1) rest ++ atom_pairs_check minD (i + 1) rest

/-- Modelled from the spec: `StructureParser.check_atom_distances(min_distance)`
is called on the merged complex in `VinaDocking.dock_two_molecules`
(`vina_docking.py` line 356) and in `test_fix.py` line 66, but its definition
is absent from this snapshot of `structure_parser.py`.  Per the spec (§4.1) it
performs a pairwise Euclidean distance scan over all atom pairs and returns all
pairs closer than the threshold, not just the worst one; the call sites unpack
the result as `(is_valid, problematic_pairs)` where `problematic_pairs` is a
list of `(i, j, dist)` triples and `is_valid` means no pair violates the
threshold.  To stay inside `ℚ`, distances are compared via squared distances
(`dist < t ↔ dist² < t²` for `t ≥ 0`) and the reported third component is the
squared distance (equal to the distance for the coincident-atom case of the
claim, where both are `0`). -/
def check_atom_distances (s : Structure) (min_distance : ℚ) :
    Bool × List (ℕ × ℕ × ℚ) :=
  let ps := atom_pairs_check min_distance 0 s.atoms
  (ps.isEmpty, ps)

/-- A structure holding two atoms at identical coordinates. -/
def two_atom_dup (e : String) (x y z : ℚ) : Structure :=
  ⟨[⟨e, x, y, z⟩, ⟨e, x, y, z⟩], 0, 1⟩

/-! ### Batch scheduling (`scripts/batch_interaction_energy.py`)

The per-pair calculation invokes the full pipeline (external subprocesses);
the embedding abstracts that call as a function `run : BatchPair → Except
String α`, where `.error msg` stands for a raised exception rendered as
`f"{type(e).__name__}: {str(e)}"`.  `mp.Pool.map` preserves input order and
yields one result per argument, so it is embedded as `List.map`. -/

/-- One molecule pair of the batch, with its derived identity
`f"{name_a}_{name_b}"` (`batch_interaction_energy.py` line 140). -/
structure BatchPair where
  molA : String
  molB : String
  pair_name : String
  deriving DecidableEq, Repr

/-- `stem(A) + "_" + stem(B)`. -/
def generate_pair_name (a b : String) : String := a ++ "_" ++ b

/-- The double loop of `generate_molecule_pairs`
(`batch_interaction_energy.py` lines 135-144): the full Cartesian product in
order, A-major. -/
def generate_molecule_pairs (molA_names molB_names : List String) : List BatchPair :=
  molA_names.flatMap fun a => molB_names.map fun b => ⟨a, b, generate_pair_name a b⟩

/-- The tuple returned by `calculate_single_pair`
(`batch_interaction_energy.py` lines 198 and 204):
`(pair_name, success, error_message, results)`. -/
structure PairRecord (α : Type) where
  pair_name : String
  success : Bool
  error_msg : Option String
  payload : Option α
  deriving DecidableEq, Repr

/-- `BatchInteractionCalculator.calculate_single_pair`
(`batch_interaction_energy.py` lines 146-204): run the pipeline inside
`try`/`except`; on success return a success record with the payload, on any
exception return a failure record with the rendered message. -/
def calculate_single_pair {α : Type} (run : BatchPair → Except String α)
    (p : BatchPair) : PairRecord α :=
  match run p with
  | .ok res => ⟨p.pair_name, true, none, some res⟩
  | .error e => ⟨p.pair_name, false, some e, none⟩

/-- The summary statistics and per-pair record lists built by
`run_batch_calculation` (`batch_interaction_energy.py` lines 233-272). -/
structure BatchSummary (α : Type) where
  total_pairs : ℕ
  successful : ℕ
  failed : ℕ
  successful_calculations : List (PairRecord α)
  failed_calculations : List (PairRecord α)
  deriving DecidableEq, Repr

/-- `BatchInteractionCalculator.run_batch_calculation`
(`batch_interaction_energy.py` lines 206-272): map the per-pair calculation
over all pairs, partition the records into successes and failures (order
preserved), and report `total_pairs = len(pairs)`,
`successful = len(successful)`, `failed = len(failed)`. -/
def run_batch_calculation {α : Type} (run : BatchPair → Except String α)
    (pairs : List BatchPair) : BatchSummary α :=
  let results := pairs.map (calculate_single_pair run)
  let ok := results.filter fun r => r.success
  let bad := results.filter fun r => !r.success
  ⟨pairs.length, ok.length, bad.length, ok, bad⟩

/-- The 2 × 3 demo batch of the claim: 6 pairs. -/
def batch_demo_pairs : List BatchPair :=
  generate_molecule_pairs ["mA1", "mA2"] ["mB1", "mB2", "mB3"]

/-- A deterministic pipeline stub failing on exactly one of the 6 demo pairs. -/
def batch_demo_run : BatchPair → Except String Unit := fun p =>
  if p.pair_name = "mA2_mB2" then .error "RuntimeError: Gaussian calculation failed"
  else .ok ()

end MEPS

namespace MEPS

/-- Membership in `pair_with`: exactly the atoms of `l` (at offset `k` from
`j0`) closer to `a` than the threshold. -/
theorem pair_with_mem (minD : ℚ) (i0 : ℕ) (a : Atom) (l : List Atom) :
    ∀ (j0 i j : ℕ) (d : ℚ),
      (i, j, d) ∈ pair_with minD i0 a j0 l ↔
        i = i0 ∧ ∃ k b, l[k]? = some b ∧ j = j0 + k ∧ d = dist_sq a b ∧ d < minD ^ 2 := by
  induction l with
  | nil => intro j0 i j d; simp [pair_with]
  | cons b rest ih =>
    intro j0 i j d
    simp only [pair_with, List.mem_append]
    constructor
    · rintro (h | h)
      · by_cases hlt : dist_sq a b < minD ^ 2
        · rw [if_pos hlt] at h
          simp only [List.mem_singleton, Prod.mk.injEq] at h
          obtain ⟨hi, hj, hd⟩ := h
          exact ⟨hi, 0, b, by simp, by omega, hd, hd ▸ hlt⟩
        · rw [if_neg hlt] at h
          simp at h
      · obtain ⟨hi, k, b', hget, hj, hd, hlt⟩ := (ih (j0 + 1) i j d).mp h
        exact ⟨hi, k + 1, b', by simpa using hget, by omega, hd, hlt⟩
    · rintro ⟨hi, k, b', hget, hj, hd, hlt⟩
      cases k with
      | zero =>
        simp only [List.getElem?_cons_zero, Option.some.injEq] at hget
        subst hget
        left
        rw [if_pos (hd ▸ hlt)]
        simp [hi, hj, hd]
      | succ k =>
        right
        exact (ih (j0 + 1) i j d).mpr
          ⟨hi, k, b', by simpa using hget, by omega, hd, hlt⟩

/-- Membership in `atom_pairs_check`: exactly the index pairs `ka < kb` whose
atoms are closer than the threshold. -/
theorem atom_pairs_check_mem (minD : ℚ) (l : List Atom) :
    ∀ (i0 i j : ℕ) (d : ℚ),
      (i, j, d) ∈ atom_pairs_check minD i0 l ↔
        ∃ ka kb a b, i = i0 + ka ∧ j = i0 + kb ∧ ka < kb ∧
          l[ka]? = some a ∧ l[kb]? = some b ∧ d = dist_sq a b ∧ d < minD ^ 2 := by
  induction l with
  | nil => intro i0 i j d; simp [atom_pairs_check]
  | cons a rest ih =>
    intro i0 i j d
    simp only [atom_pairs_check, List.mem_append]
    constructor
    · rintro (h | h)
      · obtain ⟨hi, k, b, hget, hj, hd, hlt⟩ := (pair_with_mem minD i0 a rest (i0 + 1) i j d).mp h
        exact ⟨0, k + 1, a, b, by omega, by omega, by omega, by simp,
          by simpa using hget, hd, hlt⟩
      · obtain ⟨ka, kb, a', b, hi, hj, hkk, hga, hgb, hd, hlt⟩ := (ih (i0 + 1) i j d).mp h
        exact ⟨ka + 1, kb + 1, a', b, by omega, by omega, by omega,
          by simpa using hga, by simpa using hgb, hd, hlt⟩
    · rintro ⟨ka, kb, a', b, hi, hj, hkk, hga, hgb, hd, hlt⟩
      cases ka with
      | zero =>
        simp only [List.getElem?_cons_zero, Option.some.injEq] at hga
        subst hga
        obtain ⟨kb', rfl⟩ : ∃ kb', kb = kb' + 1 := ⟨kb - 1, by omega⟩
        left
        exact (pair_with_mem minD i0 a rest (i0 + 1) i j d).mpr
          ⟨hi.trans (by omega), kb', b, by simpa using hgb, by omega, hd, hlt⟩
      | succ ka =>
        obtain ⟨kb', rfl⟩ : ∃ kb', kb = kb' + 1 := ⟨kb - 1, by omega⟩
        right
        exact (ih (i0 + 1) i j d).mpr
          ⟨ka, kb', a', b, by omega, by omega, by omega,
            by simpa using hga, by simpa using hgb, hd, hlt⟩

/-- C1: `check_atom_distances` returns exactly the atom pairs `i < j` whose
(squared) distance is below the (squared) positive threshold, and on a
structure with two atoms at identical coordinates it reports the pair `(0, 1)`
with distance `0` and classifies the structure as invalid for every positive
threshold. -/
theorem check_atom_distances_spec (s : Structure) (minD : ℚ)
    (e : String) (x y z : ℚ) (hmin : 0 < minD) :
    (∀ (i j : ℕ) (d : ℚ),
      (i, j, d) ∈ (check_atom_distances s minD).2 ↔
        ∃ a b, i < j ∧ s.atoms[i]? = some a ∧ s.atoms[j]? = some b ∧
          d = dist_sq a b ∧ d < minD ^ 2) ∧
    (check_atom_distances (two_atom_dup e x y z) minD).1 = false ∧
    (0, 1, 0) ∈ (check_atom_distances (two_atom_dup e x y z) minD).2 := by
  have hdup : dist_sq (Atom.mk e x y z) (Atom.mk e x y z) = 0 := by
    simp [dist_sq]
  have hpos : (0 : ℚ) < minD ^ 2 := by positivity
  have hcompute :
      atom_pairs_check minD 0 (two_atom_dup e x y z).atoms = [(0, 1, 0)] := by
    simp [two_atom_dup, atom_pairs_check, pair_with, hdup, hpos]
  refine ⟨fun i j d => ?_, ?_, ?_⟩
  · rw [show (check_atom_distances s minD).2 = atom_pairs_check minD 0 s.atoms from rfl,
      atom_pairs_check_mem]
    constructor
    · rintro ⟨ka, kb, a, b, rfl, rfl, hkk, hga, hgb, hd, hlt⟩
      exact ⟨a, b, by omega, by simpa using hga, by simpa using hgb, hd, hlt⟩
    · rintro ⟨a, b, hij, hga, hgb, hd, hlt⟩
      exact ⟨i, j, a, b, by omega, by omega, hij, hga, hgb, hd, hlt⟩
  · show (atom_pairs_check minD 0 (two_atom_dup e x y z).atoms).isEmpty = false
    rw [hcompute]; rfl
  · show (0, 1, 0) ∈ atom_pairs_check minD 0 (two_atom_dup e x y z).atoms
    rw [hcompute]; simp

/-- Witness for C1 at a concrete structure and threshold. -/
theorem check_atom_distances_spec_witness :
    (0 : ℚ) < 1 ∧
    ((check_atom_distances (two_atom_dup "O" 0 0 0) 1).1 = false ∧
     (0, 1, 0) ∈ (check_atom_distances (two_atom_dup "O" 0 0 0) 1).2) := by
  refine ⟨by norm_num, ?_⟩
  have h := check_atom_distances_spec (two_atom_dup "O" 0 0 0) 1 "O" 0 0 0 (by norm_num)
  exact ⟨h.2.1, h.2.2⟩

/-- The reversed scan decides by the first sentinel line it meets. -/
theorem scan_reversed_eq_head_filter (L : List (List Char)) :
    scan_reversed_for_termination L =
      match (L.filter has_termination_sentinel).head? with
      | none => false
      | some l => contains_sub normal_sentinel l := by
  induction L with
  | nil => rfl
  | cons l rest ih =>
    by_cases hN : contains_sub normal_sentinel l
    · simp [scan_reversed_for_termination, List.filter_cons,
        has_termination_sentinel, hN]
    · by_cases hE : contains_sub error_sentinel l <;>
        simp [scan_reversed_for_termination, List.filter_cons,
          has_termination_sentinel, hN, hE, ih]

/-- C5: `is_normal_termination` classifies a log as normal exactly when the
last line holding a termination sentinel holds "Normal termination", and as
not normal when neither sentinel appears (the last-occurrence-wins rule, at
the line granularity at which the parser reads the log). -/
theorem is_normal_termination_last_sentinel (content : List (List Char)) :
    is_normal_termination content = classify_by_last_sentinel content := by
  unfold is_normal_termination classify_by_last_sentinel
  rw [scan_reversed_eq_head_filter, List.filter_reverse, List.head?_reverse]

/-- A decimal digit is not whitespace. -/
theorem isDigit_not_ws {c : Char} (h : c.isDigit = true) : c.isWhitespace = false := by
  by_contra hw
  rw [Bool.not_eq_false] at hw
  simp only [Char.isWhitespace, Bool.or_eq_true, decide_eq_true_eq] at hw
  rcases hw with ((hw | hw) | hw) | hw <;> subst hw <;> exact absurd h (by decide)

/-- `digit_char` of a digit value is a digit character. -/
theorem digit_char_isDigit {d : ℕ} (h : d < 10) : (digit_char d).isDigit = true := by
  interval_cases d <;> decide

/-- Every character produced by the digit accumulator is a decimal digit
(provided the seed accumulator only holds digits). -/
theorem nat_digits_core_digit :
    ∀ (fuel n : ℕ) (acc : List Char), (∀ c ∈ acc, c.isDigit = true) →
      ∀ c ∈ nat_digits_core fuel n acc, c.isDigit = true := by
  intro fuel
  induction fuel with
  | zero => intro n acc hacc; simpa [nat_digits_core] using hacc
  | succ fuel ih =>
    intro n acc hacc c hc
    simp only [nat_digits_core] at hc
    by_cases h0 : n / 10 = 0
    · rw [if_pos h0] at hc
      rcases List.mem_cons.mp hc with rfl | hc
      · exact digit_char_isDigit (by omega)
      · exact hacc c hc
    · rw [if_neg h0] at hc
      refine ih (n / 10) _ ?_ c hc
      intro x hx
      rcases List.mem_cons.mp hx with rfl | hx
      · exact digit_char_isDigit (by omega)
      · exact hacc x hx

/-- The digit accumulator never discards its seed. -/
theorem nat_digits_core_ne_nil :
    ∀ (fuel n : ℕ) (acc : List Char), acc ≠ [] → nat_digits_core fuel n acc ≠ [] := by
  intro fuel
  induction fuel with
  | zero => intro n acc hacc; simpa [nat_digits_core] using hacc
  | succ fuel ih =>
    intro n acc hacc
    simp only [nat_digits_core]
    by_cases h0 : n / 10 = 0
    · rw [if_pos h0]; simp
    · rw [if_neg h0]; exact ih (n / 10) _ (by simp)

/-- The decimal string of a natural number is nonempty. -/
theorem nat_digits_ne_nil (n : ℕ) : nat_digits n ≠ [] := by
  unfold nat_digits
  simp only [nat_digits_core]
  by_cases h0 : n / 10 = 0
  · rw [if_pos h0]; simp
  · rw [if_neg h0]; exact nat_digits_core_ne_nil n (n / 10) _ (by simp)

/-- The decimal string of a natural number consists of digit characters. -/
theorem nat_digits_all_digit (n : ℕ) : ∀ c ∈ nat_digits n, c.isDigit = true :=
  nat_digits_core_digit (n + 1) n [] (by simp)

/-- `str(int)` output is nonempty. -/
theorem int_str_ne_nil (n : ℤ) : int_str n ≠ [] := by
  unfold int_str
  split
  · simp
  · exact nat_digits_ne_nil _

/-- Every character of `str(int)` output is a digit or the minus sign. -/
theorem int_str_digit_or_dash (n : ℤ) : ∀ c ∈ int_str n, c.isDigit = true ∨ c = '-' := by
  unfold int_str
  split <;> intro c hc
  · rcases List.mem_cons.mp hc with rfl | hc
    · right; rfl
    · left; exact nat_digits_all_digit _ c hc
  · left; exact nat_digits_all_digit _ c hc

/-- `str(int)` output holds no whitespace. -/
theorem int_str_not_ws (n : ℤ) : ∀ c ∈ int_str n, c.isWhitespace = false := by
  intro c hc
  rcases int_str_digit_or_dash n c hc with hd | rfl
  · exact isDigit_not_ws hd
  · decide

/-- Scanning a whitespace-free chunk just accumulates it. -/
theorem split_ws_aux_token :
    ∀ (t : List Char), (∀ c ∈ t, c.isWhitespace = false) →
      ∀ (rest acc : List Char),
        split_ws_aux (t ++ rest) acc = split_ws_aux rest (t.reverse ++ acc) := by
  intro t
  induction t with
  | nil => intro _ rest acc; simp
  | cons c t' ih =>
    intro hws rest acc
    have hc : c.isWhitespace = false := hws c (by simp)
    rw [List.cons_append]
    simp only [split_ws_aux, hc, Bool.false_eq_true, if_false]
    rw [ih (fun x hx => hws x (by simp [hx])) rest (c :: acc)]
    simp

/-- A space flushes a nonempty accumulator as one token. -/
theorem split_ws_aux_space (rest acc : List Char) (h : acc ≠ []) :
    split_ws_aux (' ' :: rest) acc = acc.reverse :: split_ws_aux rest [] := by
  cases acc with
  | nil => exact absurd rfl h
  | cons a as => simp [split_ws_aux]

/-- A final newline flushes a nonempty accumulator as the last token. -/
theorem split_ws_aux_nl (acc : List Char) (h : acc ≠ []) :
    split_ws_aux ['\n'] acc = [acc.reverse] := by
  cases acc with
  | nil => exact absurd rfl h
  | cons a as => simp [split_ws_aux]

/-- A nonempty whitespace-free token followed by a space splits off as one
token. -/
theorem split_ws_tok_space (t r : List Char) (hne : t ≠ [])
    (hws : ∀ c ∈ t, c.isWhitespace = false) :
    split_ws_aux (t ++ ' ' :: r) [] = t :: split_ws_aux r [] := by
  rw [split_ws_aux_token t hws (' ' :: r) [], List.append_nil,
    split_ws_aux_space r t.reverse (by simpa using hne), List.reverse_reverse]

/-- A nonempty whitespace-free token followed by a final newline is the last
token. -/
theorem split_ws_tok_nl (t : List Char) (hne : t ≠ [])
    (hws : ∀ c ∈ t, c.isWhitespace = false) :
    split_ws_aux (t ++ ['\n']) [] = [t] := by
  rw [split_ws_aux_token t hws ['\n'] [], List.append_nil,
    split_ws_aux_nl t.reverse (by simpa using hne), List.reverse_reverse]

/-- C2: the counterpoise charge/multiplicity line tokenizes as the total
charge (the sum of the fragment charges), the total multiplicity fixed at 1,
then fragment A's charge/multiplicity pair, then fragment B's; for two neutral
singlet fragments the line reads "0 1 0 1 0 1". -/
theorem counterpoise_charge_mult_line_spec (ca ma cb mb : ℤ) :
    split_ws (counterpoise_charge_mult_line ca ma cb mb) =
      [int_str (ca + cb), int_str 1, int_str ca, int_str ma, int_str cb, int_str mb] ∧
    counterpoise_charge_mult_line 0 1 0 1 = "0 1 0 1 0 1\n".toList := by
  constructor
  · have hline : counterpoise_charge_mult_line ca ma cb mb =
        int_str (ca + cb) ++ ' ' :: (int_str 1 ++ ' ' :: (int_str ca ++ ' ' ::
          (int_str ma ++ ' ' :: (int_str cb ++ ' ' :: (int_str mb ++ ['\n'])))))
        := by
      simp [counterpoise_charge_mult_line, List.append_assoc]
    unfold split_ws
    rw [hline,
      split_ws_tok_space _ _ (int_str_ne_nil _) (int_str_not_ws _),
      split_ws_tok_space _ _ (int_str_ne_nil _) (int_str_not_ws _),
      split_ws_tok_space _ _ (int_str_ne_nil _) (int_str_not_ws _),
      split_ws_tok_space _ _ (int_str_ne_nil _) (int_str_not_ws _),
      split_ws_tok_space _ _ (int_str_ne_nil _) (int_str_not_ws _),
      split_ws_tok_nl _ (int_str_ne_nil _) (int_str_not_ws _)]
  · decide

/-- C4 counterexample: on a log whose orientation block holds atomic number 14
(absent from the lookup table), `read_gaussian_output` does not fail — it
succeeds (`some`, where a raised error would be `none`) and silently labels
the single atom with the string "14", a non-element symbol. -/
theorem read_gaussian_output_z14_no_failure :
    (read_gaussian_output gaussian_log_z14).map (List.map Atom.el) = some ["14"] := by
  decide

/-- C4 as amended: an atomic number outside the fixed lookup table does not
raise; the atom is silently labeled with the decimal string of the atomic
number — a string of digits (with possible sign), not an element symbol. -/
theorem element_for_unmapped (n : ℤ) (h : atomic_symbol n = none) :
    element_for n = String.mk (int_str n) ∧
    ∀ c ∈ (element_for n).data, c.isDigit = true ∨ c = '-' := by
  have he : element_for n = String.mk (int_str n) := by
    unfold element_for
    rw [h]
  exact ⟨he, by rw [he]; exact int_str_digit_or_dash n⟩

/-- Witness for the amended C4 at atomic number 14. -/
theorem element_for_unmapped_witness :
    atomic_symbol 14 = none ∧ element_for 14 = String.mk (int_str 14) ∧
      element_for 14 = "14" :=
  ⟨by decide, (element_for_unmapped 14 (by decide)).1, by decide⟩

/-- Lines before the results header are skipped by the Vina parse loop. -/
theorem parse_vina_lines_skip_pre :
    ∀ (pre : List (List Char)), (∀ l ∈ pre, is_results_header l = false) →
      ∀ rest, parse_vina_lines (pre ++ rest) false = parse_vina_lines rest false := by
  intro pre
  induction pre with
  | nil => intro _ rest; rfl
  | cons l pre' ih =>
    intro hpre rest
    have hl : is_results_header l = false := hpre l (by simp)
    rw [List.cons_append]
    simp only [parse_vina_lines, hl, Bool.false_eq_true, if_false]
    exact ih (fun x hx => hpre x (by simp [hx])) rest

/-- Inside the results section, the parse loop is a `filterMap` of the
per-line parse (with header-looking lines contributing nothing). -/
theorem parse_vina_lines_in_section :
    ∀ rest : List (List Char),
      parse_vina_lines rest true = rest.filterMap section_line_parse := by
  intro rest
  induction rest with
  | nil => rfl
  | cons l rest' ih =>
    by_cases hh : is_results_header l
    · simp [parse_vina_lines, section_line_parse, hh, ih, List.filterMap_cons]
    · cases hm : parse_mode_line l <;>
        simp [parse_vina_lines, section_line_parse, hh, hm, ih, List.filterMap_cons]

/-- C3: on a stdout whose lines split as progress/banner lines (none matching
the results-header test), then the header, then the rest, the parsed modes are
exactly the per-line parses of the post-header lines (one mode per pose row,
none for other lines), `best_affinity` is the first parsed row's affinity, and
any line whose leading token holds `%` (a progress indicator, even one
starting with digits) contributes no mode. -/
theorem vina_parse_progress_and_modes (output : List Char)
    (pre rest : List (List Char)) (hdr : List Char)
    (hsplit : split_nl output = pre ++ hdr :: rest)
    (hpre : ∀ l ∈ pre, is_results_header l = false)
    (hhdr : is_results_header hdr = true) :
    (parse_vina_output output).modes = rest.filterMap section_line_parse ∧
    (parse_vina_output output).best_affinity =
      (rest.filterMap section_line_parse).head?.map VinaMode.affinity ∧
    ∀ l ∈ rest, first_token_percent l = true → parse_mode_line l = none := by
  have hmodes : (parse_vina_output output).modes = rest.filterMap section_line_parse := by
    show parse_vina_lines (split_nl output) false = _
    rw [hsplit, parse_vina_lines_skip_pre pre hpre (hdr :: rest)]
    simp only [parse_vina_lines, hhdr, if_true]
    exact parse_vina_lines_in_section rest
  refine ⟨hmodes, ?_, ?_⟩
  · show ((parse_vina_output output).modes).head?.map VinaMode.affinity = _
    rw [hmodes]
  · intro l _ hpct
    unfold first_token_percent at hpct
    unfold parse_mode_line
    rcases hsw : split_ws l with _ | ⟨p0, ts⟩
    · rw [hsw] at hpct; simp at hpct
    · rw [hsw] at hpct
      rcases hst : strip l with _ | ⟨c, cs⟩
      · simp [hst]
      · simp only [hst]
        by_cases hd : c.isDigit
        · simp only [hd, if_true]
          cases ts with
          | nil => simp [hsw]
          | cons p1 ps =>
            have hmem : '%' ∈ p0 := by simpa using hpct
            simp [hsw]
            intro _ _ h3
            exact absurd hmem h3
        · simp [hd]

/-- Witness for C3 on a representative stdout: two pose rows with a banner,
progress lines and a units/separator block interleaved yield exactly 2 modes
and a present best affinity. -/
theorem vina_parse_progress_and_modes_witness :
    (parse_vina_output vina_demo_output).modes =
      vina_demo_rest.filterMap section_line_parse ∧
    (parse_vina_output vina_demo_output).modes.length = 2 ∧
    (parse_vina_output vina_demo_output).best_affinity.isSome = true :=
  ⟨(vina_parse_progress_and_modes vina_demo_output vina_demo_pre vina_demo_rest
      vina_demo_hdr (by decide) (by decide) (by decide)).1,
   by decide, by decide⟩

/-- C6: `merge(A, B)` yields `A.atoms ++ B.atoms` (so the length is the sum and
A's atoms are the exact prefix followed by B's atoms), the charge is the sum of
the charges, and the multiplicity is the max of the multiplicities. -/
theorem merge_spec (A B : Structure) :
    (merge A B).atoms.length = A.atoms.length + B.atoms.length ∧
    (merge A B).atoms = A.atoms ++ B.atoms ∧
    (merge A B).atoms.take A.atoms.length = A.atoms ∧
    (merge A B).atoms.drop A.atoms.length = B.atoms ∧
    (merge A B).charge = A.charge + B.charge ∧
    (merge A B).multiplicity = max A.multiplicity B.multiplicity := by
  refine ⟨?_, rfl, ?_, ?_, rfl, rfl⟩
  · simp [merge]
  · simp [merge, List.take_append]
  · simp [merge, List.drop_append]

/-- C10: on a structure with no atoms, `get_bounding_box` returns the zero box
`((0,0),(0,0),(0,0))` instead of raising. -/
theorem get_bounding_box_empty (s : Structure) (h : s.atoms = []) :
    get_bounding_box s = ((0, 0), (0, 0), (0, 0)) := by
  unfold get_bounding_box
  rw [h]

/-- Witness for C10 at the concrete empty structure. -/
theorem get_bounding_box_empty_witness :
    (Structure.mk [] 0 1).atoms = [] ∧
    get_bounding_box (Structure.mk [] 0 1) = ((0, 0), (0, 0), (0, 0)) :=
  ⟨rfl, get_bounding_box_empty (Structure.mk [] 0 1) rfl⟩

/-- `option_map_list` preserves length when it succeeds. -/
theorem option_map_list_length {α β : Type} (f : α → Option β) :
    ∀ (l : List α) (l' : List β), option_map_list f l = some l' → l.length = l'.length := by
  intro l
  induction l with
  | nil =>
    intro l' h
    simp only [option_map_list, Option.some.injEq] at h
    subst h; rfl
  | cons a t ih =>
    intro l' h
    simp only [option_map_list] at h
    rcases hf : f a with _ | b <;> rw [hf] at h
    · exact absurd h (by simp)
    · rcases ht : option_map_list f t with _ | t' <;> rw [ht] at h
      · exact absurd h (by simp)
      · have h' : b :: t' = l' := by simpa using h
        subst h'
        simp [ih t' ht]

/-- Step collection: one record per trigger line, in order, each holding that
line's parsed energy. -/
theorem extract_steps_cp :
    ∀ (lines : List (List Char)) (steps : List CpStep),
      extract_steps lines = some steps →
      option_map_list parse_eq_float (lines.filter has_cp_trigger) =
        some (steps.map CpStep.cp_energy) := by
  intro lines
  induction lines with
  | nil =>
    intro steps hs
    simp only [extract_steps, Option.some.injEq] at hs
    subst hs; rfl
  | cons l rest ih =>
    intro steps hs
    by_cases ht : has_cp_trigger l
    · simp only [extract_steps, ht, if_true] at hs
      rcases hpe : parse_eq_float l with _ | cp <;> rw [hpe] at hs
      · exact absurd hs (by simp)
      · rcases hw : window_fields (rest.take 9) (none, none, none)
          with _ | ⟨b, r, c⟩ <;> rw [hw] at hs
        · exact absurd hs (by simp)
        · rcases he : extract_steps rest with _ | steps' <;> rw [he] at hs
          · exact absurd hs (by simp)
          · simp only [Option.some.injEq] at hs
            subst hs
            simp [List.filter_cons, ht, option_map_list, hpe, ih steps' he]
    · simp only [extract_steps, ht, Bool.false_eq_true, if_false] at hs
      simp [List.filter_cons, ht, ih steps hs]

/-- C8: when `extract_counterpoise_results` succeeds, it collected one record
per step-level counterpoise block (one per trigger line, in order, each
holding that line's parsed energy), kept the full history in
`optimization_steps`, and reported the last record's counterpoise-corrected
energy, BSSE energy and raw/corrected complexation energies as the final
values. -/
theorem extract_counterpoise_last_authoritative (lines : List (List Char))
    (h : extract_counterpoise_results lines ≠ none) :
    ∃ r, extract_counterpoise_results lines = some r ∧
      r.optimization_steps.length = (lines.filter has_cp_trigger).length ∧
      option_map_list parse_eq_float (lines.filter has_cp_trigger) =
        some (r.optimization_steps.map CpStep.cp_energy) ∧
      r.counterpoise_corrected_energy =
        r.optimization_steps.getLast?.map CpStep.cp_energy ∧
      r.bsse_energy = r.optimization_steps.getLast?.bind CpStep.bsse ∧
      r.complexation_energy_raw =
        r.optimization_steps.getLast?.bind CpStep.raw_energy ∧
      r.complexation_energy_corrected =
        r.optimization_steps.getLast?.bind CpStep.corrected_energy := by
  obtain ⟨steps, hsteps⟩ : ∃ s, extract_steps lines = some s := by
    rcases hs : extract_steps lines with _ | s
    · exact absurd (by simp [extract_counterpoise_results, hs]) h
    · exact ⟨s, rfl⟩
  have hcp := extract_steps_cp lines steps hsteps
  have hlen := option_map_list_length parse_eq_float _ _ hcp
  rcases hgl : steps.getLast? with _ | last
  · have hnil : steps = [] := by simpa using hgl
    subst hnil
    refine ⟨⟨none, none, none, none, none, [],
        lines.any fun l => contains_sub normal_sentinel l⟩, ?_, ?_, ?_, rfl, rfl, rfl, rfl⟩
    · simp [extract_counterpoise_results, hsteps]
    · simpa using hlen.symm
    · simpa using hcp
  · refine ⟨⟨some last.cp_energy, last.bsse, none, last.raw_energy,
        last.corrected_energy, steps,
        lines.any fun l => contains_sub normal_sentinel l⟩, ?_, ?_, ?_, ?_, ?_, ?_, ?_⟩
    · simp [extract_counterpoise_results, hsteps, hgl]
    · simpa using hlen.symm
    · simpa using hcp
    · simp [hgl]
    · simp [hgl]
    · simp [hgl]
    · simp [hgl]

/-- Witness for C8: a log with two counterpoise blocks yields a successful
extraction with two records and the last block authoritative. -/
theorem extract_counterpoise_last_authoritative_witness :
    extract_counterpoise_results cp_demo_log ≠ none ∧
    ∃ r, extract_counterpoise_results cp_demo_log = some r ∧
      r.optimization_steps.length = (cp_demo_log.filter has_cp_trigger).length ∧
      r.counterpoise_corrected_energy =
        r.optimization_steps.getLast?.map CpStep.cp_energy := by
  have h : extract_counterpoise_results cp_demo_log ≠ none := by decide
  obtain ⟨r, h1, h2, _, h4, _, _, _⟩ := extract_counterpoise_last_authoritative cp_demo_log h
  exact ⟨h, r, h1, h2, h4⟩

/-- Partitioning a list by a Boolean predicate preserves the total count. -/
theorem length_filter_with_not {α : Type} (p : α → Bool) :
    ∀ l : List α, (l.filter p).length + (l.filter fun x => !p x).length = l.length := by
  intro l
  induction l with
  | nil => rfl
  | cons a t ih => cases h : p a <;> simp [List.filter_cons, h] <;> omega

/-- C7: every pair of a batch produces exactly one record — a success with a
payload and no error message, or a failure with an error message and no
payload; a failing pair never prevents the others from being recorded (the
record list is a total map over the pairs), and the summary satisfies
`total_pairs = successful + failed`; on the 2×3 demo batch with one
deterministic failure the summary reads 6/5/1. -/
theorem run_batch_calculation_spec {α : Type} (run : BatchPair → Except String α)
    (pairs : List BatchPair) :
    (run_batch_calculation run pairs).total_pairs = pairs.length ∧
    (run_batch_calculation run pairs).total_pairs =
      (run_batch_calculation run pairs).successful +
        (run_batch_calculation run pairs).failed ∧
    (run_batch_calculation run pairs).successful_calculations.length +
        (run_batch_calculation run pairs).failed_calculations.length = pairs.length ∧
    (∀ p ∈ pairs,
      ((calculate_single_pair run p).success = true ∧
        (calculate_single_pair run p).payload.isSome = true ∧
        (calculate_single_pair run p).error_msg = none) ∨
      ((calculate_single_pair run p).success = false ∧
        (calculate_single_pair run p).payload = none ∧
        (calculate_single_pair run p).error_msg.isSome = true)) ∧
    (run_batch_calculation batch_demo_run batch_demo_pairs).total_pairs = 6 ∧
    (run_batch_calculation batch_demo_run batch_demo_pairs).successful = 5 ∧
    (run_batch_calculation batch_demo_run batch_demo_pairs).failed = 1 := by
  have hpart := length_filter_with_not (fun r : PairRecord α => r.success)
    (pairs.map (calculate_single_pair run))
  have hm : (pairs.map (calculate_single_pair run)).length = pairs.length := by simp
  refine ⟨rfl, ?_, ?_, ?_, by decide, by decide, by decide⟩
  · show pairs.length =
        ((pairs.map (calculate_single_pair run)).filter fun r => r.success).length +
          ((pairs.map (calculate_single_pair run)).filter fun r => !r.success).length
    omega
  · show ((pairs.map (calculate_single_pair run)).filter fun r => r.success).length +
          ((pairs.map (calculate_single_pair run)).filter fun r => !r.success).length =
        pairs.length
    omega
  · intro p _
    unfold calculate_single_pair
    cases run p with
    | ok res => left; exact ⟨rfl, rfl, rfl⟩
    | error e => right; exact ⟨rfl, rfl, rfl⟩

/-- C9: calling `optimize_complex` with a complex structure and `structure_a`
but no `structure_b` derives fragment A with `structure_a`'s charge and
multiplicity and fragment B with charge `0` and multiplicity `1`, splitting the
complex's atom list at `len(structure_a.atoms)`. -/
theorem derive_fragments_default_b (a c : Structure) :
    ∃ fa fb : Structure,
      derive_fragments (some a) none (some c) = Except.ok (fa, fb) ∧
      fa.atoms = c.atoms.take a.atoms.length ∧
      fa.charge = a.charge ∧
      fa.multiplicity = a.multiplicity ∧
      fb.atoms = c.atoms.drop a.atoms.length ∧
      fb.charge = 0 ∧
      fb.multiplicity = 1 :=
  ⟨_, _, rfl, rfl, rfl, rfl, rfl, rfl, rfl⟩

end MEPS
